import Mathlib

/-!
Shallow embedding of the `Usb2Snes` protocol client from
`usb2snes-uploader.py` (undisbeliever/usb2snes-uploader).

The client is a small stateful class over a websocket.  We embed it as pure
functions over an explicit state (`Usb2Snes`): the transport's open flag and
the recorded attached device.  Network effects are made explicit:

* every operation returns a `Step α`, recording the new state, the list of
  frames sent on the transport (in order), and an `Except Err α` result;
* inbound responses (device lists, listing responses) are passed in as
  parameters, and local file contents are passed in as a byte list together
  with the byte length reported by `stat`.

Errors are all `RuntimeError` in the source; we distinguish them by raise
site, mirroring the spec's error taxonomy.
-/

/-- Error kinds, one per distinct raise site of the source. -/
inductive Err where
  | ConnectionClosed
  | NotAttached
  | DeviceNotFound (deviceList : List String)
  | InvalidPath
  | ProtocolError
  | TransferSizeMismatch (transferred fileSize : Nat)
deriving DecidableEq, Repr

/-- One discrete message on the transport: either a JSON command frame
(modelled by its opcode and operand list; `Space` and `Flags` are constants)
or a raw binary frame carrying payload bytes. -/
inductive Frame where
  | text (opcode : String) (operands : List String)
  | binary (payload : List Nat)
deriving DecidableEq, Repr

/-- Client state: `__init__` stores the socket and sets `self._device = None`.
We keep the socket's open/closed status and the recorded device. -/
structure Usb2Snes where
  socketOpen : Bool
  device : Option String
deriving DecidableEq, Repr

/-- Result of running one client operation: the state afterwards, the frames
sent on the transport before returning or raising, and the outcome. -/
structure Step (α : Type) where
  state : Usb2Snes
  sent : List Frame
  result : Except Err α

instance {ε α : Type} [DecidableEq ε] [DecidableEq α] : DecidableEq (Except ε α) :=
  fun x y =>
    match x, y with
    | .error a, .error b =>
      if h : a = b then .isTrue (by rw [h])
      else .isFalse (by intro he; injection he; contradiction)
    | .error _, .ok _ => .isFalse (by intro he; injection he)
    | .ok _, .error _ => .isFalse (by intro he; injection he)
    | .ok a, .ok b =>
      if h : a = b then .isTrue (by rw [h])
      else .isFalse (by intro he; injection he; contradiction)

namespace Usb2Snes

/-- `Usb2Snes.BLOCK_SIZE = 1024`. -/
def BLOCK_SIZE : Nat := 1024

/-- `Usb2Snes.DIR_PATH_TYPE = '0'`. -/
def DIR_PATH_TYPE : String := "0"

/-- Embeds `_assert_attached`: raises `ConnectionClosed` when the socket is
unusable, then `NotAttached` when no device is recorded. -/
def assert_attached (s : Usb2Snes) : Except Err Unit :=
  if !s.socketOpen then .error .ConnectionClosed
  else match s.device with
    | none => .error .NotAttached
    | some _ => .ok ()

/-- Prefix test on character lists: the second argument is a prefix of the
first (Python's `str.startswith` on the characters). -/
def startsWithL : List Char → List Char → Bool
  | _, [] => true
  | [], _ :: _ => false
  | a :: as, b :: bs => a == b && startsWithL as bs

/-- Suffix test on character lists (Python's `str.endswith`). -/
def endsWithL (hay suffix : List Char) : Bool :=
  startsWithL hay.reverse suffix.reverse

/-- Substring test on character lists: `needle` occurs contiguously in the
second argument (Python's `in` on strings). -/
def hasSub (needle : List Char) : List Char → Bool
  | [] => needle.isEmpty
  | c :: rest => startsWithL (c :: rest) needle || hasSub needle rest

/-- Embeds `_check_usb2snes_path`: rejects a backslash anywhere, a missing
leading `/`, and a trailing `/` unless the whole path is exactly `/`.
String operations are embedded over the strings' character lists. -/
def check_usb2snes_path (path : String) : Except Err Unit :=
  if path.data.contains '\\' then .error .InvalidPath
  else if !startsWithL path.data "/".data then .error .InvalidPath
  else if endsWithL path.data "/".data && path != "/" then .error .InvalidPath
  else .ok ()

/-- Lowercase hexadecimal digit for a value below 16, as Python's `{:x}`. -/
def hexDigit (n : Nat) : Char :=
  if n < 10 then Char.ofNat (48 + n) else Char.ofNat (87 + n)

/-- Hex digit list of `n`, most significant first, empty for `0`. -/
def hexDigits : Nat → List Char
  | 0 => []
  | n + 1 => hexDigits ((n + 1) / 16) ++ [hexDigit ((n + 1) % 16)]
decreasing_by exact Nat.div_lt_self (Nat.succ_pos n) (by omega)

/-- Embeds Python's `f"{n:x}"`: lowercase hexadecimal, no prefix, `"0"` for 0. -/
def natToHex (n : Nat) : String :=
  if n = 0 then "0" else String.mk (hexDigits n)

/-- Embeds the read/send loop of `put_file`: repeatedly take a block of up to
`BLOCK_SIZE` bytes from the remaining file contents; while the block is
non-empty, send it as a binary frame and add its length to the running
`transferred` total.  Returns the binary frames sent (in order) and the
final total. -/
def sendLoop : List Nat → List Frame × Nat
  | [] => ([], 0)
  | c :: rest =>
    let block := (c :: rest).take BLOCK_SIZE
    let r := sendLoop ((c :: rest).drop BLOCK_SIZE)
    (Frame.binary block :: r.1, block.length + r.2)
termination_by l => l.length
decreasing_by simp [BLOCK_SIZE]; omega

/-- Blocks of `BLOCK_SIZE` bytes (last one possibly shorter) that the send
loop pushes, used to state what `put_file` streams. -/
def chunks : List Nat → List (List Nat)
  | [] => []
  | c :: rest => (c :: rest).take BLOCK_SIZE :: chunks ((c :: rest).drop BLOCK_SIZE)
termination_by l => l.length
decreasing_by simp [BLOCK_SIZE]; omega

/-- Embeds `put_file(source, dest)`.  `fileSize` is the byte length reported
by `stat` on the local source; `content` is the byte sequence the sequential
reads of the local source actually return.  Order of the source: the
attachment guard, then path validation, then the `PutFile` command frame, the
send loop, and finally the size check raising `TransferSizeMismatch`. -/
def put_file (s : Usb2Snes) (fileSize : Nat) (content : List Nat)
    (dest_filename : String) : Step Unit :=
  match assert_attached s with
  | .error e => ⟨s, [], .error e⟩
  | .ok _ =>
    match check_usb2snes_path dest_filename with
    | .error e => ⟨s, [], .error e⟩
    | .ok _ =>
      let header := Frame.text "PutFile" [dest_filename, natToHex fileSize]
      let r := sendLoop content
      ⟨s, header :: r.1,
        if r.2 ≠ fileSize then .error (.TransferSizeMismatch r.2 fileSize)
        else .ok ()⟩

/-- Embeds `boot(usb2snes_path)`: `_request("Boot", path)`, no validation. -/
def boot (s : Usb2Snes) (usb2snes_path : String) : Step Unit :=
  match assert_attached s with
  | .error e => ⟨s, [], .error e⟩
  | .ok _ => ⟨s, [Frame.text "Boot" [usb2snes_path]], .ok ()⟩

/-- Embeds the normalization `if not path: path = '/'` at the top of
`_list`: an empty (falsy) path becomes `"/"`. -/
def normPath (path : String) : String :=
  if path.data.isEmpty then "/" else path

/-- Embeds `_list(path)`: normalizes an empty (falsy) path to `"/"`,
validates it, then issues the `List` request; `response` is the decoded
`Results` field of the reply frame. -/
def listRaw (s : Usb2Snes) (path : String) (response : List String) :
    Step (List String) :=
  match check_usb2snes_path (normPath path) with
  | .error e => ⟨s, [], .error e⟩
  | .ok _ =>
    match assert_attached s with
    | .error e => ⟨s, [], .error e⟩
    | .ok _ => ⟨s, [Frame.text "List" [normPath path]], .ok response⟩

/-- Consecutive (type-tag, name) pairs `(response[i], response[i+1])` that
the generator `_list_iter` yields on an even-length response. -/
def pairUp : List String → List (String × String)
  | a :: b :: rest => (a, b) :: pairUp rest
  | _ => []

/-- Embeds `_list_iter(response)`: raises `ProtocolError` when the response
length is odd, otherwise yields the consecutive pairs. -/
def list_iter (response : List String) : Except Err (List (String × String)) :=
  if response.length % 2 ≠ 0 then .error .ProtocolError
  else .ok (pairUp response)

/-- Embeds the classification loop of `list`: a pair whose type tag equals
`DIR_PATH_TYPE` goes to the directories list, any other pair to the files
list, preserving relative order within each. -/
def classifyEntries : List (String × String) → List String × List String
  | [] => ([], [])
  | (path_type, fn) :: rest =>
    let r := classifyEntries rest
    if path_type == DIR_PATH_TYPE then (fn :: r.1, r.2) else (r.1, fn :: r.2)

/-- Embeds `list(path)`: `_list`, then `_list_iter`, then the classification
loop returning `(directories, files)`. -/
def list (s : Usb2Snes) (path : String) (response : List String) :
    Step (List String × List String) :=
  match listRaw s path response with
  | ⟨st, sent, .error e⟩ => ⟨st, sent, .error e⟩
  | ⟨st, sent, .ok resp⟩ =>
    match list_iter resp with
    | .error e => ⟨st, sent, .error e⟩
    | .ok pairs => ⟨st, sent, .ok (classifyEntries pairs)⟩

/-- Position just after the last `'/'` in the character list, `0` when there
is none: Python's `p.rfind('/') + 1`. -/
def afterLastSlash : List Char → Nat
  | [] => 0
  | c :: rest =>
    let r := afterLastSlash rest
    if r > 0 then r + 1
    else if c = '/' then 1 else 0

/-- Drops trailing `'/'` characters, Python's `head.rstrip('/')`. -/
def rstripSlashes (cs : List Char) : List Char :=
  (cs.reverse.dropWhile (fun c => c == '/')).reverse

/-- Embeds `posixpath.split(p)`: split at the position after the last slash,
then strip trailing slashes from the head unless the head consists solely of
slashes. -/
def posixSplit (p : String) : String × String :=
  let cs := p.data
  let i := afterLastSlash cs
  let head := cs.take i
  let tail := cs.drop i
  let head :=
    if !head.isEmpty && !head.all (fun c => c == '/') then rstripSlashes head
    else head
  (String.mk head, String.mk tail)

/-- Embeds `check_file_exists(path)`: split off the parent directory and
base name, list the parent, and return whether the first listing entry whose
name equals the base name is not a directory; `False` when no name matches. -/
def check_file_exists (s : Usb2Snes) (path : String) (response : List String) :
    Step Bool :=
  match listRaw s (posixSplit path).1 response with
  | ⟨st, sent, .error e⟩ => ⟨st, sent, .error e⟩
  | ⟨st, sent, .ok resp⟩ =>
    match list_iter resp with
    | .error e => ⟨st, sent, .error e⟩
    | .ok pairs =>
      match pairs.find? (fun e => e.2 == (posixSplit path).2) with
      | some e => ⟨st, sent, .ok (e.1 != DIR_PATH_TYPE)⟩
      | none => ⟨st, sent, .ok false⟩

/-- Embeds `'SD2SNES' in d.upper()`; `str.upper` is embedded as the
character-wise `Char.toUpper` map over the string's characters. -/
def hasSd2snesMarker (d : String) : Bool :=
  hasSub "SD2SNES".data (d.data.map Char.toUpper)

/-- Embeds the `for d in device_list` loop: first matching device, if any. -/
def findDevice : List String → Option String
  | [] => none
  | d :: rest => if hasSd2snesMarker d then some d else findDevice rest

/-- Embeds `find_and_attach_device()`: issue `DeviceList` (pre-attachment,
so only the socket-open check applies), scan the returned `device_list` for
the first SD2SNES, raise `DeviceNotFound` with the raw list when none
matches, otherwise issue `Attach` with the found name, record it in
`self._device` and return it. -/
def find_and_attach_device (s : Usb2Snes) (device_list : List String) :
    Step String :=
  if !s.socketOpen then ⟨s, [], .error .ConnectionClosed⟩
  else
    let dl := Frame.text "DeviceList" []
    match findDevice device_list with
    | none => ⟨s, [dl], .error (.DeviceNotFound device_list)⟩
    | some d =>
      ⟨{ s with device := some d }, [dl, Frame.text "Attach" [d]], .ok d⟩

end Usb2Snes

namespace Usb2Snes

/-! ### Helper lemmas about the embedded operations -/

theorem assert_attached_ok (s : Usb2Snes) :
    assert_attached s = .ok () ↔ s.socketOpen = true ∧ ∃ d, s.device = some d := by
  unfold assert_attached
  cases h : s.socketOpen <;> cases hd : s.device <;> simp [h, hd]

theorem check_path_cases (p : String) :
    check_usb2snes_path p = .ok () ∨ check_usb2snes_path p = .error .InvalidPath := by
  unfold check_usb2snes_path
  split
  · exact Or.inr rfl
  · split
    · exact Or.inr rfl
    · split
      · exact Or.inr rfl
      · exact Or.inl rfl

theorem check_path_not_ok (p : String) (h : check_usb2snes_path p ≠ .ok ()) :
    check_usb2snes_path p = .error .InvalidPath :=
  (check_path_cases p).resolve_left h

theorem chunks_eq_nil (l : List Nat) : chunks l = [] ↔ l = [] := by
  cases l <;> simp [chunks]

theorem sendLoop_fst (l : List Nat) :
    (sendLoop l).1 = (chunks l).map Frame.binary := by
  induction l using sendLoop.induct with
  | case1 => simp [sendLoop, chunks]
  | case2 c rest ih => simp [sendLoop, chunks, ih]

theorem sendLoop_snd (l : List Nat) : (sendLoop l).2 = l.length := by
  induction l using sendLoop.induct with
  | case1 => simp [sendLoop]
  | case2 c rest ih =>
    simp only [sendLoop, List.length_take, List.length_drop, List.length_cons,
      BLOCK_SIZE] at ih ⊢
    omega

theorem chunks_length (l : List Nat) :
    (chunks l).length = (l.length + (BLOCK_SIZE - 1)) / BLOCK_SIZE := by
  induction l using chunks.induct with
  | case1 => simp [chunks, BLOCK_SIZE]
  | case2 c rest ih =>
    simp only [chunks, List.length_cons, List.length_drop, BLOCK_SIZE] at ih ⊢
    omega

theorem chunks_mem (l : List Nat) :
    ∀ b ∈ chunks l, 0 < b.length ∧ b.length ≤ BLOCK_SIZE := by
  induction l using chunks.induct with
  | case1 => simp [chunks]
  | case2 c rest ih =>
    intro b hb
    rw [chunks] at hb
    rcases List.mem_cons.mp hb with h | h
    · subst h
      simp only [List.length_take, List.length_cons, BLOCK_SIZE]
      omega
    · exact ih b h

theorem chunks_dropLast (l : List Nat) :
    ∀ b ∈ (chunks l).dropLast, b.length = BLOCK_SIZE := by
  induction l using chunks.induct with
  | case1 => simp [chunks]
  | case2 c rest ih =>
    intro b hb
    rw [chunks] at hb
    cases hd : chunks ((c :: rest).drop BLOCK_SIZE) with
    | nil => rw [hd] at hb; simp at hb
    | cons x xs =>
      rw [hd] at hb
      rcases List.mem_cons.mp hb with h | h
      · subst h
        have hne : (c :: rest).drop BLOCK_SIZE ≠ [] := by
          intro he
          rw [he] at hd
          simp [chunks] at hd
        have : BLOCK_SIZE < (c :: rest).length := by
          by_contra hle
          exact hne (List.drop_eq_nil_of_le (by omega))
        simp only [List.length_take]
        omega
      · exact ih b (by rw [hd]; exact h)

theorem length_filter_partition {α : Type} (p : α → Bool) (l : List α) :
    (l.filter p).length + (l.filter fun a => !p a).length = l.length := by
  induction l with
  | nil => simp
  | cons a t ih =>
    cases h : p a <;> simp [List.filter_cons, h] <;> omega

theorem classifyEntries_eq (l : List (String × String)) :
    classifyEntries l =
      ((l.filter fun e => e.1 == DIR_PATH_TYPE).map Prod.snd,
       (l.filter fun e => e.1 != DIR_PATH_TYPE).map Prod.snd) := by
  induction l with
  | nil => rfl
  | cons a t ih =>
    obtain ⟨ty, fn⟩ := a
    cases h : (ty == DIR_PATH_TYPE) <;>
      simp [classifyEntries, List.filter_cons, h, ih, bne]

theorem find?_first {α : Type} (p : α → Bool) (l : List α) (a : α) :
    l.find? p = some a ↔
      ∃ l₁ l₂, l = l₁ ++ a :: l₂ ∧ p a = true ∧ ∀ x ∈ l₁, p x = false := by
  induction l with
  | nil => simp
  | cons x t ih =>
    cases h : p x with
    | true =>
      rw [List.find?_cons_of_pos _ h]
      constructor
      · rintro h2
        injection h2 with h2
        exact ⟨[], t, by rw [h2]; rfl, h2 ▸ h, by simp⟩
      · rintro ⟨l₁, l₂, heq, hpa, hfst⟩
        cases l₁ with
        | nil =>
          injection heq with h1 h2
          rw [h1]
        | cons y ys =>
          injection heq with h1 h2
          have := hfst y (by simp)
          rw [h1] at h
          rw [h] at this
          cases this
    | false =>
      rw [List.find?_cons_of_neg _ (by simp [h])]
      rw [ih]
      constructor
      · rintro ⟨l₁, l₂, heq, hpa, hfst⟩
        refine ⟨x :: l₁, l₂, by rw [heq]; rfl, hpa, ?_⟩
        intro z hz
        rcases List.mem_cons.mp hz with hz | hz
        · rw [hz]; exact h
        · exact hfst z hz
      · rintro ⟨l₁, l₂, heq, hpa, hfst⟩
        cases l₁ with
        | nil =>
          injection heq with h1 h2
          rw [h1] at h
          rw [hpa] at h
          cases h
        | cons y ys =>
          injection heq with h1 h2
          exact ⟨ys, l₂, h2, hpa, fun z hz => hfst z (by simp [hz])⟩

theorem findDevice_eq_find (l : List String) :
    findDevice l = l.find? hasSd2snesMarker := by
  induction l with
  | nil => rfl
  | cons d t ih =>
    cases h : hasSd2snesMarker d <;>
      simp [findDevice, h, ih, List.find?_cons_of_pos, List.find?_cons_of_neg]

theorem startsWithL_iff (needle hay : List Char) :
    startsWithL hay needle = true ↔ ∃ rest, hay = needle ++ rest := by
  induction needle generalizing hay with
  | nil => simp [startsWithL]
  | cons b bs ih =>
    cases hay with
    | nil => simp [startsWithL]
    | cons a as =>
      simp only [startsWithL, Bool.and_eq_true, beq_iff_eq, ih, List.cons_append,
        List.cons.injEq]
      constructor
      · rintro ⟨rfl, rest, rfl⟩; exact ⟨rest, rfl, rfl⟩
      · rintro ⟨rest, rfl, rfl⟩; exact ⟨rfl, rest, rfl⟩

theorem hasSub_iff (needle hay : List Char) :
    hasSub needle hay = true ↔ ∃ pre post, hay = pre ++ needle ++ post := by
  induction hay with
  | nil =>
    simp only [hasSub, List.isEmpty_iff]
    constructor
    · rintro rfl; exact ⟨[], [], rfl⟩
    · rintro ⟨pre, post, h⟩
      rcases List.append_eq_nil.mp (List.append_eq_nil.mp h.symm).1 with ⟨-, h2⟩
      exact h2
  | cons c rest ih =>
    simp only [hasSub, Bool.or_eq_true, startsWithL_iff, ih]
    constructor
    · rintro (⟨r, hr⟩ | ⟨pre, post, hp⟩)
      · exact ⟨[], r, by simp [hr]⟩
      · exact ⟨c :: pre, post, by simp [hp]⟩
    · rintro ⟨pre, post, hp⟩
      cases pre with
      | nil => exact Or.inl ⟨post, by simpa using hp⟩
      | cons y ys =>
        injection hp with h1 h2
        exact Or.inr ⟨ys, post, by simpa using h2⟩

theorem afterLastSlash_of_no_slash (cs : List Char) (h : '/' ∉ cs) :
    afterLastSlash cs = 0 := by
  induction cs with
  | nil => rfl
  | cons c rest ih =>
    have hc : ¬(c = '/') := fun he => h (by rw [he]; exact List.mem_cons_self _ _)
    have hr : afterLastSlash rest = 0 := ih fun hm => h (List.mem_cons_of_mem _ hm)
    simp [afterLastSlash, hr, hc]

theorem posixSplit_no_slash (p : String) (h : '/' ∉ p.data) :
    posixSplit p = ("", p) := by
  simp only [posixSplit, afterLastSlash_of_no_slash _ h]
  simp

theorem put_file_state (s : Usb2Snes) (fileSize : Nat) (content : List Nat)
    (dest : String) : (put_file s fileSize content dest).state = s := by
  unfold put_file
  split
  · rfl
  · split
    · rfl
    · rfl

theorem boot_state (s : Usb2Snes) (p : String) : (boot s p).state = s := by
  unfold boot
  split
  · rfl
  · rfl

theorem assert_attached_cases (s : Usb2Snes) :
    assert_attached s = .ok ()
    ∨ assert_attached s = .error .ConnectionClosed
    ∨ assert_attached s = .error .NotAttached := by
  unfold assert_attached
  cases ho : s.socketOpen <;> cases hd : s.device <;> simp

theorem listRaw_cases (s : Usb2Snes) (path : String) (response : List String) :
    listRaw s path response = ⟨s, [], .error .InvalidPath⟩
    ∨ listRaw s path response = ⟨s, [], .error .ConnectionClosed⟩
    ∨ listRaw s path response = ⟨s, [], .error .NotAttached⟩
    ∨ listRaw s path response =
        ⟨s, [Frame.text "List" [normPath path]], .ok response⟩ := by
  unfold listRaw
  rcases check_path_cases (normPath path) with h | h <;> rw [h]
  · rcases assert_attached_cases s with ha | ha | ha <;> rw [ha] <;> simp
  · simp

theorem listRaw_state (s : Usb2Snes) (path : String) (response : List String) :
    (listRaw s path response).state = s := by
  rcases listRaw_cases s path response with h | h | h | h <;> rw [h]

theorem list_state (s : Usb2Snes) (path : String) (response : List String) :
    (list s path response).state = s := by
  unfold list
  rcases listRaw_cases s path response with h | h | h | h <;> rw [h] <;> try rfl
  cases hli : list_iter response with
  | error e => simp [hli]
  | ok pairs => simp [hli]

theorem check_file_exists_state (s : Usb2Snes) (path : String)
    (response : List String) : (check_file_exists s path response).state = s := by
  unfold check_file_exists
  rcases listRaw_cases s (posixSplit path).1 response with h | h | h | h <;>
    rw [h] <;> try rfl
  cases hli : list_iter response with
  | error e => simp [hli]
  | ok pairs =>
    cases hf : pairs.find? (fun e => e.2 == (posixSplit path).2) with
    | some e => simp [hli, hf]
    | none => simp [hli, hf]

theorem listRaw_ok (s : Usb2Snes) (d path : String) (response : List String)
    (hOpen : s.socketOpen = true) (hDev : s.device = some d)
    (hPath : check_usb2snes_path (normPath path) = .ok ()) :
    listRaw s path response =
      ⟨s, [Frame.text "List" [normPath path]], .ok response⟩ := by
  have ha : assert_attached s = .ok () :=
    (assert_attached_ok s).mpr ⟨hOpen, ⟨d, hDev⟩⟩
  unfold listRaw
  rw [hPath, ha]

theorem listRaw_invalid (s : Usb2Snes) (path : String) (response : List String)
    (hPath : check_usb2snes_path (normPath path) ≠ .ok ()) :
    listRaw s path response = ⟨s, [], .error .InvalidPath⟩ := by
  unfold listRaw
  rw [check_path_not_ok _ hPath]

/-! ### Claim theorems -/

/-- C1: on an attached client with an open socket and a valid destination
path, `put_file` sends the `PutFile` command with operands
`(remote_dest, lowercase hexadecimal of the declared size)` and then streams
the bytes read from the source as exactly `⌈length / 1024⌉` binary frames,
each of `BLOCK_SIZE = 1024` bytes except a possibly shorter (non-empty) last
frame; it succeeds exactly when the accumulated transferred total — the
number of bytes read and sent — equals the declared size `fileSize`, and
otherwise fails with `TransferSizeMismatch`. -/
theorem c1_put_file_stream (s : Usb2Snes) (dev : String) (fileSize : Nat)
    (content : List Nat) (dest : String)
    (hOpen : s.socketOpen = true) (hDev : s.device = some dev)
    (hPath : check_usb2snes_path dest = .ok ()) :
    (put_file s fileSize content dest).sent =
        Frame.text "PutFile" [dest, natToHex fileSize] ::
          (chunks content).map Frame.binary
    ∧ (chunks content).length = (content.length + (BLOCK_SIZE - 1)) / BLOCK_SIZE
    ∧ (∀ b ∈ (chunks content).dropLast, b.length = BLOCK_SIZE)
    ∧ (∀ b ∈ chunks content, 0 < b.length ∧ b.length ≤ BLOCK_SIZE)
    ∧ (content.length = fileSize →
        (put_file s fileSize content dest).result = .ok ())
    ∧ (content.length ≠ fileSize →
        (put_file s fileSize content dest).result =
          .error (.TransferSizeMismatch content.length fileSize)) := by
  have ha : assert_attached s = .ok () :=
    (assert_attached_ok s).mpr ⟨hOpen, ⟨dev, hDev⟩⟩
  have hput : put_file s fileSize content dest =
      ⟨s, Frame.text "PutFile" [dest, natToHex fileSize] :: (sendLoop content).1,
        if (sendLoop content).2 ≠ fileSize then
          .error (.TransferSizeMismatch (sendLoop content).2 fileSize)
        else .ok ()⟩ := by
    unfold put_file
    rw [ha, hPath]
  refine ⟨?_, chunks_length content, chunks_dropLast content, chunks_mem content,
    ?_, ?_⟩
  · rw [hput]
    simp [sendLoop_fst]
  · intro he
    rw [hput]
    simp [sendLoop_snd, he]
  · intro hne
    rw [hput]
    simp [sendLoop_snd, hne]

/-- C1 witness: a 3-byte file is uploaded successfully on an attached open
client with a valid destination. -/
theorem c1_witness :
    (put_file ⟨true, some "SD2SNES"⟩ 3 [1, 2, 3] "/r").result = Except.ok () :=
  (c1_put_file_stream ⟨true, some "SD2SNES"⟩ "SD2SNES" 3 [1, 2, 3] "/r" rfl rfl
    (by decide)).2.2.2.2.1 rfl

/-- C2: path validation accepts `p` exactly when `p` starts with `/`,
contains no backslash, and does not end with `/` unless `p = "/"`; every
violating string fails with `InvalidPath`, and `put_file` on an attached
open client given a violating destination fails with `InvalidPath` without
sending any frame. -/
theorem c2_path_validation (p : String) :
    (check_usb2snes_path p = .ok () ↔
      (startsWithL p.data "/".data = true ∧ p.data.contains '\\' = false ∧
        (endsWithL p.data "/".data = true → p = "/")))
    ∧ (check_usb2snes_path p ≠ .ok () →
        check_usb2snes_path p = .error .InvalidPath)
    ∧ (∀ s fileSize content, s.socketOpen = true → (∃ d, s.device = some d) →
        check_usb2snes_path p ≠ .ok () →
        (put_file s fileSize content p).result = .error .InvalidPath ∧
        (put_file s fileSize content p).sent = []) := by
  refine ⟨?_, check_path_not_ok p, ?_⟩
  · unfold check_usb2snes_path
    cases h1 : p.data.contains '\\' <;>
      cases h2 : startsWithL p.data "/".data <;>
        cases h3 : endsWithL p.data "/".data <;>
          by_cases h4 : p = "/" <;> simp [h1, h2, h3, h4, bne]
  · intro s fileSize content hOpen hDev hBad
    have ha : assert_attached s = .ok () := (assert_attached_ok s).mpr ⟨hOpen, hDev⟩
    have hc := check_path_not_ok p hBad
    unfold put_file
    rw [ha, hc]
    exact ⟨rfl, rfl⟩

/-- C2 witness: the root path is accepted. -/
theorem c2_witness : check_usb2snes_path "/" = Except.ok () :=
  (c2_path_validation "/").1.mpr (by decide)

/-- C10: uploading a zero-length local file (declared size 0, no bytes read)
to a valid destination on an attached open client sends only the `PutFile`
command with size operand `"0"`, streams no binary frame, and succeeds. -/
theorem c10_put_file_empty (s : Usb2Snes) (dev dest : String)
    (hOpen : s.socketOpen = true) (hDev : s.device = some dev)
    (hPath : check_usb2snes_path dest = .ok ()) :
    (put_file s 0 [] dest).sent = [Frame.text "PutFile" [dest, "0"]]
    ∧ (put_file s 0 [] dest).result = .ok () := by
  have ha : assert_attached s = .ok () :=
    (assert_attached_ok s).mpr ⟨hOpen, ⟨dev, hDev⟩⟩
  have hput : put_file s 0 [] dest =
      ⟨s, [Frame.text "PutFile" [dest, "0"]], .ok ()⟩ := by
    unfold put_file
    rw [ha, hPath]
    simp [sendLoop, natToHex]
  rw [hput]
  exact ⟨rfl, rfl⟩

/-- C10 witness: concrete zero-byte upload. -/
theorem c10_witness :
    (put_file ⟨true, some "SD2SNES"⟩ 0 [] "/rom.sfc").sent =
      [Frame.text "PutFile" ["/rom.sfc", "0"]] :=
  (c10_put_file_empty ⟨true, some "SD2SNES"⟩ "SD2SNES" "/rom.sfc" rfl rfl
    (by decide)).1

theorem findDevice_first (pre post : List String) (d : String)
    (hd : hasSd2snesMarker d = true)
    (hpre : ∀ x ∈ pre, hasSd2snesMarker x = false) :
    findDevice (pre ++ d :: post) = some d := by
  induction pre with
  | nil => simp [findDevice, hd]
  | cons y ys ih =>
    have hy := hpre y (by simp)
    simp only [List.cons_append, findDevice, hy, Bool.false_eq_true, if_false]
    exact ih fun x hx => hpre x (by simp [hx])

theorem findDevice_none (l : List String)
    (h : ∀ x ∈ l, hasSd2snesMarker x = false) : findDevice l = none := by
  induction l with
  | nil => rfl
  | cons y ys ih =>
    simp only [findDevice, h y (by simp), Bool.false_eq_true, if_false]
    exact ih fun x hx => h x (by simp [hx])

/-- C3: on an attached open client with a valid (normalized) path, `list`
decodes an even-length response into the ordered `(type-tag, name)` pairs and
partitions them, order-preserving, into directories (tag `"0"`) and files
(any other tag), every pair landing in exactly one collection; an odd-length
response fails with `ProtocolError`. -/
theorem c3_list_partition (s : Usb2Snes) (d path : String)
    (response : List String)
    (hOpen : s.socketOpen = true) (hDev : s.device = some d)
    (hPath : check_usb2snes_path (normPath path) = .ok ()) :
    (response.length % 2 = 0 →
      (list s path response).result =
        .ok (((pairUp response).filter fun e => e.1 == DIR_PATH_TYPE).map Prod.snd,
             ((pairUp response).filter fun e => e.1 != DIR_PATH_TYPE).map Prod.snd)
      ∧ (((pairUp response).filter fun e => e.1 == DIR_PATH_TYPE).map
            Prod.snd).length +
          (((pairUp response).filter fun e => e.1 != DIR_PATH_TYPE).map
            Prod.snd).length
          = (pairUp response).length)
    ∧ (response.length % 2 ≠ 0 →
        (list s path response).result = .error .ProtocolError) := by
  have hlr := listRaw_ok s d path response hOpen hDev hPath
  constructor
  · intro hEven
    have hli : list_iter response = .ok (pairUp response) := by
      unfold list_iter
      simp [hEven]
    constructor
    · unfold list
      rw [hlr]
      simp [hli, classifyEntries_eq]
    · simp only [List.length_map, bne]
      exact length_filter_partition (fun e => e.1 == DIR_PATH_TYPE) (pairUp response)
  · intro hOdd
    have hli : list_iter response = .error .ProtocolError := by
      unfold list_iter
      simp [hOdd]
    unfold list
    rw [hlr]
    simp [hli]

/-- C3 witness: concrete even and odd responses. -/
theorem c3_witness :
    (list ⟨true, some "SD2SNES"⟩ "/dir" ["0", "sub", "1", "a.bin"]).result =
      Except.ok (["sub"], ["a.bin"]) := by
  have h := (c3_list_partition ⟨true, some "SD2SNES"⟩ "SD2SNES" "/dir"
    ["0", "sub", "1", "a.bin"] rfl rfl (by decide)).1 (by decide)
  rw [h.1]
  decide

/-- C4: with the socket open, `find_and_attach_device` selects the first
device-list entry whose uppercased name contains `"SD2SNES"` as a substring,
sends `DeviceList` then `Attach` with that name, records it as the attached
device and returns it; when no entry matches it fails with `DeviceNotFound`
carrying the raw device list, leaves the state unchanged (recording no
device), and sends only `DeviceList`. -/
theorem c4_find_and_attach (s : Usb2Snes) (device_list : List String)
    (hOpen : s.socketOpen = true) :
    (∀ pre d post, device_list = pre ++ d :: post → hasSd2snesMarker d = true →
      (∀ x ∈ pre, hasSd2snesMarker x = false) →
      (find_and_attach_device s device_list).result = .ok d
      ∧ (find_and_attach_device s device_list).state.device = some d
      ∧ (find_and_attach_device s device_list).sent =
          [Frame.text "DeviceList" [], Frame.text "Attach" [d]])
    ∧ ((∀ x ∈ device_list, hasSd2snesMarker x = false) →
        (find_and_attach_device s device_list).result =
          .error (.DeviceNotFound device_list)
        ∧ (find_and_attach_device s device_list).state = s
        ∧ (find_and_attach_device s device_list).sent =
            [Frame.text "DeviceList" []])
    ∧ (∀ x : String, hasSd2snesMarker x = true ↔
        ∃ pre post, x.data.map Char.toUpper = pre ++ "SD2SNES".data ++ post) := by
  refine ⟨?_, ?_, ?_⟩
  · intro pre d post heq hd hpre
    have hf : findDevice device_list = some d := by
      rw [heq]
      exact findDevice_first pre post d hd hpre
    unfold find_and_attach_device
    simp [hOpen, hf]
  · intro hall
    have hf := findDevice_none device_list hall
    unfold find_and_attach_device
    simp [hOpen, hf]
  · intro x
    unfold hasSd2snesMarker
    exact hasSub_iff _ _

/-- C4 witness: the spec's attachment example selects `"SD2SNES_XYZ"`. -/
theorem c4_witness :
    (find_and_attach_device ⟨true, none⟩ ["OTHERDEVICE", "SD2SNES_XYZ"]).result =
      Except.ok "SD2SNES_XYZ" :=
  ((c4_find_and_attach ⟨true, none⟩ ["OTHERDEVICE", "SD2SNES_XYZ"] rfl).1
    ["OTHERDEVICE"] "SD2SNES_XYZ" [] rfl (by decide) (by decide)).1

/-- C7: on an attached open client, for a path whose (normalized) parent
directory validates and an even-length `List` response for it,
`check_file_exists` returns true exactly when some decoded entry's name
equals the path's base name and the first such entry's type tag is not the
directory tag `"0"`; it returns false when no entry's name matches. -/
theorem c7_file_exists (s : Usb2Snes) (d path : String) (response : List String)
    (hOpen : s.socketOpen = true) (hDev : s.device = some d)
    (hPath : check_usb2snes_path (normPath (posixSplit path).1) = .ok ())
    (hEven : response.length % 2 = 0) :
    ((check_file_exists s path response).result = .ok true ↔
      ∃ l₁ e l₂, pairUp response = l₁ ++ e :: l₂ ∧ e.2 = (posixSplit path).2
        ∧ (∀ x ∈ l₁, x.2 ≠ (posixSplit path).2) ∧ e.1 ≠ DIR_PATH_TYPE)
    ∧ ((∀ e ∈ pairUp response, e.2 ≠ (posixSplit path).2) →
        (check_file_exists s path response).result = .ok false) := by
  have hlr := listRaw_ok s d (posixSplit path).1 response hOpen hDev hPath
  have hli : list_iter response = .ok (pairUp response) := by
    unfold list_iter
    simp [hEven]
  have hmain : (check_file_exists s path response).result =
      (match (pairUp response).find? (fun e => e.2 == (posixSplit path).2) with
       | some e => .ok (e.1 != DIR_PATH_TYPE)
       | none => .ok false) := by
    unfold check_file_exists
    rw [hlr]
    cases hf : (pairUp response).find? (fun e => e.2 == (posixSplit path).2) with
    | some e => simp [hli, hf]
    | none => simp [hli, hf]
  constructor
  · rw [hmain]
    cases hf : (pairUp response).find? (fun e => e.2 == (posixSplit path).2) with
    | some e =>
      constructor
      · intro h
        injection h with h
        have hne : e.1 ≠ DIR_PATH_TYPE := bne_iff_ne.mp h
        obtain ⟨l₁, l₂, heq, hpa, hfst⟩ := (find?_first _ _ _).mp hf
        exact ⟨l₁, e, l₂, heq, by simpa using hpa,
          fun x hx => by simpa using hfst x hx, hne⟩
      · rintro ⟨l₁, e2, l₂, heq, he2, hfst, hne⟩
        have hf2 : (pairUp response).find? (fun e => e.2 == (posixSplit path).2)
            = some e2 :=
          (find?_first _ _ _).mpr
            ⟨l₁, l₂, heq, by simpa using he2,
              fun x hx => by simpa using hfst x hx⟩
        rw [hf] at hf2
        injection hf2 with hf2
        subst hf2
        show Except.ok (e.1 != DIR_PATH_TYPE) = Except.ok true
        rw [bne_iff_ne.mpr hne]
    | none =>
      constructor
      · intro h
        injection h with h
        cases h
      · rintro ⟨l₁, e2, l₂, heq, he2, hfst, hne⟩
        have hmem : e2 ∈ pairUp response := by
          rw [heq]
          exact List.mem_append_right _ (List.mem_cons_self _ _)
        have := List.find?_eq_none.mp hf e2 hmem
        simp [he2] at this
  · intro hall
    rw [hmain]
    have hf : (pairUp response).find? (fun e => e.2 == (posixSplit path).2)
        = none :=
      List.find?_eq_none.mpr fun x hx => by simpa using hall x hx
    rw [hf]

/-- C7 witness: the spec's example — `/dir/name.bin` listed as a file. -/
theorem c7_witness :
    (check_file_exists ⟨true, some "SD2SNES"⟩ "/dir/name.bin"
      ["1", "name.bin", "0", "sub"]).result = Except.ok true :=
  ((c7_file_exists ⟨true, some "SD2SNES"⟩ "SD2SNES" "/dir/name.bin"
    ["1", "name.bin", "0", "sub"] rfl rfl (by decide) (by decide)).1).mpr
    ⟨[], ("1", "name.bin"), [("0", "sub")], by decide, by decide,
      by decide, by decide⟩

theorem list_iter_cases (response : List String) :
    list_iter response = .error .ProtocolError
    ∨ list_iter response = .ok (pairUp response) := by
  unfold list_iter
  split
  · exact Or.inl rfl
  · exact Or.inr rfl

/-- C5 counterexample: on a client already attached to `"SD2SNES old"`, a
second `find_and_attach_device` call with a matching device list succeeds and
overwrites the recorded device instead of failing. -/
theorem c5_counterexample :
    (find_and_attach_device ⟨true, some "SD2SNES old"⟩ ["SD2SNES new"]).result
        = Except.ok "SD2SNES new"
    ∧ (find_and_attach_device ⟨true, some "SD2SNES old"⟩
        ["SD2SNES new"]).state.device = some "SD2SNES new" := by
  decide

/-- C5 amended: `attached_device` is mutated only by `find_and_attach_device`
— `put_file`, `boot`, `list` and `check_file_exists` never change the state —
but re-attachment is not guarded against: a second successful
`find_and_attach_device` call on an already-attached client does not fail and
overwrites the recorded device with the newly found one. -/
theorem c5_attached_device_mutation (s : Usb2Snes) (fileSize : Nat)
    (content : List Nat) (dest p path : String) (response : List String)
    (dl : List String) (d0 d : String)
    (hDev : s.device = some d0) (hOpen : s.socketOpen = true)
    (hFind : findDevice dl = some d) :
    (put_file s fileSize content dest).state = s
    ∧ (boot s p).state = s
    ∧ (list s path response).state = s
    ∧ (check_file_exists s path response).state = s
    ∧ (find_and_attach_device s dl).result = .ok d
    ∧ (find_and_attach_device s dl).state.device = some d := by
  refine ⟨put_file_state s fileSize content dest, boot_state s p,
    list_state s path response, check_file_exists_state s path response, ?_, ?_⟩
  · unfold find_and_attach_device
    simp [hOpen, hFind]
  · unfold find_and_attach_device
    simp [hOpen, hFind]

/-- C5 witness: concrete re-attachment overwriting the device. -/
theorem c5_witness :
    (find_and_attach_device ⟨true, some "SD2SNES old"⟩ ["SD2SNES new"]).result
      = Except.ok "SD2SNES new" :=
  (c5_attached_device_mutation ⟨true, some "SD2SNES old"⟩ 0 [] "/d" "/p" "/q"
    [] ["SD2SNES new"] "SD2SNES old" "SD2SNES new" rfl rfl
    (by decide)).2.2.2.2.1

/-- C6 counterexample: `list` invoked on an unattached (open-socket) client
with an invalid path argument fails with `InvalidPath`, not `NotAttached`:
the claim that every attached-only operation fails with `NotAttached` on an
unattached client is false for `list` and `check_file_exists`. -/
theorem c6_counterexample :
    (list ⟨true, none⟩ "a" []).result = Except.error .InvalidPath
    ∧ (list ⟨true, none⟩ "a" []).result ≠ Except.error .NotAttached := by
  decide

/-- C6 amended: every attached-only operation invoked on an open-socket
client with no recorded device fails without sending any frame: `put_file`
and `boot` always fail with `NotAttached`; `list` and `check_file_exists`
fail with `NotAttached` when the normalized (parent) path validates, and
with `InvalidPath` otherwise, because their path validation precedes the
attachment guard. -/
theorem c6_not_attached (s : Usb2Snes) (fileSize : Nat) (content : List Nat)
    (dest p path : String) (response : List String)
    (hOpen : s.socketOpen = true) (hDev : s.device = none) :
    ((put_file s fileSize content dest).result = .error .NotAttached
      ∧ (put_file s fileSize content dest).sent = [])
    ∧ ((boot s p).result = .error .NotAttached ∧ (boot s p).sent = [])
    ∧ ((list s path response).sent = []
      ∧ (list s path response).result =
          .error (if check_usb2snes_path (normPath path) = .ok ()
            then Err.NotAttached else Err.InvalidPath))
    ∧ ((check_file_exists s path response).sent = []
      ∧ (check_file_exists s path response).result =
          .error (if check_usb2snes_path (normPath (posixSplit path).1) = .ok ()
            then Err.NotAttached else Err.InvalidPath)) := by
  have ha : assert_attached s = .error .NotAttached := by
    unfold assert_attached
    simp [hOpen, hDev]
  refine ⟨?_, ?_, ?_, ?_⟩
  · unfold put_file
    rw [ha]
    exact ⟨rfl, rfl⟩
  · unfold boot
    rw [ha]
    exact ⟨rfl, rfl⟩
  · by_cases hc : check_usb2snes_path (normPath path) = .ok ()
    · have hlr : listRaw s path response = ⟨s, [], .error .NotAttached⟩ := by
        unfold listRaw
        rw [hc, ha]
      unfold list
      rw [hlr]
      simp [hc]
    · have hlr := listRaw_invalid s path response hc
      unfold list
      rw [hlr]
      simp [hc]
  · by_cases hc : check_usb2snes_path (normPath (posixSplit path).1) = .ok ()
    · have hlr : listRaw s (posixSplit path).1 response
          = ⟨s, [], .error .NotAttached⟩ := by
        unfold listRaw
        rw [hc, ha]
      unfold check_file_exists
      rw [hlr]
      simp [hc]
    · have hlr := listRaw_invalid s (posixSplit path).1 response hc
      unfold check_file_exists
      rw [hlr]
      simp [hc]

/-- C6 witness: `boot` on an unattached open client fails with
`NotAttached` and sends nothing. -/
theorem c6_witness :
    (boot ⟨true, none⟩ "/x").result = Except.error Err.NotAttached :=
  (c6_not_attached ⟨true, none⟩ 0 [] "/d" "/x" "/q" [] rfl rfl).2.1.1

/-- C8: in `put_file` the attachment/connection guard runs before remote-path
validation: with no recorded device it fails with `NotAttached` when the
socket is open and `ConnectionClosed` when it is closed, whatever the
destination path; and `InvalidPath` can only arise once the guard has passed
(socket open and a device recorded). -/
theorem c8_guard_before_validation (s : Usb2Snes) (fileSize : Nat)
    (content : List Nat) (dest : String) (hDev : s.device = none) :
    ((put_file s fileSize content dest).result =
        .error (if s.socketOpen then Err.NotAttached else Err.ConnectionClosed)
      ∧ (put_file s fileSize content dest).sent = [])
    ∧ (∀ (s2 : Usb2Snes) (fs2 : Nat) (c2 : List Nat) (d2 : String),
        (put_file s2 fs2 c2 d2).result = .error .InvalidPath →
        s2.socketOpen = true ∧ s2.device ≠ none) := by
  constructor
  · have ha : assert_attached s =
        .error (if s.socketOpen then .NotAttached else .ConnectionClosed) := by
      unfold assert_attached
      cases ho : s.socketOpen <;> simp [hDev]
    unfold put_file
    rw [ha]
    exact ⟨rfl, rfl⟩
  · intro s2 fs2 c2 d2 hres
    rcases assert_attached_cases s2 with ha | ha | ha
    · obtain ⟨ho, d, hd⟩ := (assert_attached_ok s2).mp ha
      exact ⟨ho, by simp [hd]⟩
    · unfold put_file at hres
      rw [ha] at hres
      simp at hres
    · unfold put_file at hres
      rw [ha] at hres
      simp at hres

/-- C8 witness: an unattached open client with a doubly-invalid destination
(`bad\path`: no leading slash and a backslash) still fails `NotAttached`. -/
theorem c8_witness :
    (put_file ⟨true, none⟩ 0 [] "bad\\path").result =
      Except.error Err.NotAttached :=
  (c8_guard_before_validation ⟨true, none⟩ 0 [] "bad\\path" rfl).1.1

/-- C9: `check_file_exists` never validates its full path argument:
`InvalidPath` arises exactly when the normalized parent component obtained by
splitting fails validation; in particular a path containing no `/` at all is
split into parent `""` — normalized to `"/"` — so the root directory is
listed and no `InvalidPath` is raised. -/
theorem c9_parent_only_validation (s : Usb2Snes) (d path : String)
    (response : List String)
    (hOpen : s.socketOpen = true) (hDev : s.device = some d) :
    ((check_file_exists s path response).result = .error .InvalidPath ↔
      check_usb2snes_path (normPath (posixSplit path).1) ≠ .ok ())
    ∧ ('/' ∉ path.data →
        posixSplit path = ("", path)
        ∧ (check_file_exists s path response).sent = [Frame.text "List" ["/"]]
        ∧ (check_file_exists s path response).result ≠ .error .InvalidPath) := by
  have hInv : check_usb2snes_path (normPath (posixSplit path).1) ≠ .ok () →
      (check_file_exists s path response).result = .error .InvalidPath := by
    intro hbad
    unfold check_file_exists
    rw [listRaw_invalid s (posixSplit path).1 response hbad]
  have hOk : check_usb2snes_path (normPath (posixSplit path).1) = .ok () →
      (check_file_exists s path response).result ≠ .error .InvalidPath := by
    intro hc hres
    unfold check_file_exists at hres
    rw [listRaw_ok s d (posixSplit path).1 response hOpen hDev hc] at hres
    rcases list_iter_cases response with hli | hli
    · simp [hli] at hres
    · cases hf : (pairUp response).find? (fun e => e.2 == (posixSplit path).2) with
      | some e => simp [hli, hf] at hres
      | none => simp [hli, hf] at hres
  refine ⟨⟨fun hres hc => hOk hc hres, hInv⟩, ?_⟩
  intro hs
  have hsplit := posixSplit_no_slash path hs
  have hnorm : normPath (posixSplit path).1 = "/" := by
    rw [hsplit]
    rfl
  have hc : check_usb2snes_path (normPath (posixSplit path).1) = .ok () := by
    rw [hnorm]
    decide
  refine ⟨hsplit, ?_, hOk hc⟩
  unfold check_file_exists
  rw [listRaw_ok s d (posixSplit path).1 response hOpen hDev hc, hnorm]
  rcases list_iter_cases response with hli | hli
  · simp [hli]
  · cases hf : (pairUp response).find? (fun e => e.2 == (posixSplit path).2) with
    | some e => simp [hli, hf]
    | none => simp [hli, hf]

/-- C9 witness: a slash-free path lists the root directory, raising no
`InvalidPath`. -/
theorem c9_witness :
    (check_file_exists ⟨true, some "SD2SNES"⟩ "name.bin"
      ["1", "name.bin"]).sent = [Frame.text "List" ["/"]] :=
  ((c9_parent_only_validation ⟨true, some "SD2SNES"⟩ "SD2SNES" "name.bin"
    ["1", "name.bin"] rfl rfl).2 (by decide)).2.1

end Usb2Snes
